import Mathlib

/-!
Verification of the Project Chronos core: lifecycle state machine
(`chronos/lifecycle.py`), entity model (`chronos/models.py`), portfolio
registry (`chronos/portfolio.py`) and relationship graph
(`chronos/relationships.py`), together with the graph-reset utility
(`api/clear_graph.py`).

Modelling conventions:
* Python exceptions become `Except`; where a claim is about state left
  behind by a failing call, the error value also carries the state as it
  was at the raise point, so "unchanged on failure" is a real statement
  about the embedded function rather than an artefact of purity.
* Python dicts become insertion-ordered association lists with
  first-occurrence lookup, matching dict semantics (update-in-place keeps
  the key's position; iteration is in insertion order).
* Ownership percentages and risk scores are rationals.  Every risk-score
  sum the code can actually produce (0.3, 0.3+0.1, 0.3+0.2, 0.3+0.2+0.1)
  is exact in IEEE-754 binary64, as are the comparisons against the 0.3
  threshold on those values, so the rational model is extensionally
  faithful to the Python floats on all reachable states.
* `date.today()` is passed explicitly as a parameter; dates are modelled
  as integers (ordinal days) with the usual order.
-/

namespace Chronos

/-- Legal life-cycle states for a corporate entity (`chronos.models.Status`). -/
inductive Status where
  | PENDING
  | ACTIVE
  | IN_COMPLIANCE
  | DELINQUENT
  | DISSOLVED
deriving DecidableEq, Repr

/-- `Status.name` as Python's `Enum.name` string, as stored in metadata
snapshots and compared against `"ACTIVE"` in the shell heuristic. -/
def Status.pyName : Status → String
  | .PENDING => "PENDING"
  | .ACTIVE => "ACTIVE"
  | .IN_COMPLIANCE => "IN_COMPLIANCE"
  | .DELINQUENT => "DELINQUENT"
  | .DISSOLVED => "DISSOLVED"

/-- The record of `chronos.models.CorporateEntity`.  `formed` is a date
modelled as an integer ordinal day. -/
structure CorporateEntity where
  name : String
  jurisdiction : String
  formed : Int
  officers : List String
  status : Status
  notes : Option String
deriving DecidableEq, Repr

/-- Error kinds surfaced by the core (the Python code raises `ValueError`
with a message; the spec names the kinds `ValidationError`,
`IllegalTransitionError`, `NotFoundError`).  `illegalTransition` carries the
source and attempted target status exactly as the Python message
`"illegal transition {current.name} → {new_status.name}"` does. -/
inductive ChronosError where
  | validationError (msg : String)
  | illegalTransition (src tgt : Status)
  | notFound
deriving DecidableEq, Repr

/-- `CorporateEntity.__post_init__` guard together with dataclass
construction: raises `ValueError` when `formed > date.today()`, otherwise
yields the record.  `today` is the current date at construction time. -/
def mkCorporateEntity (name jurisdiction : String) (formed : Int)
    (officers : List String) (status : Status) (notes : Option String)
    (today : Int) : Except ChronosError CorporateEntity :=
  if formed > today then
    .error (.validationError "formed date cannot be in the future")
  else
    .ok { name := name, jurisdiction := jurisdiction, formed := formed,
          officers := officers, status := status, notes := notes }

/-- Construction with the dataclass defaults
(`officers=[]`, `status=PENDING`, `notes=None`). -/
def mkEntityDefault (name jurisdiction : String) (formed today : Int) :
    Except ChronosError CorporateEntity :=
  mkCorporateEntity name jurisdiction formed [] .PENDING none today

/-- `chronos.lifecycle.RULES`: source status to list of valid target
statuses; `RULES.get(current, set())` yields the empty set for
`DISSOLVED`, which has no entry in the dict. -/
def RULES : Status → List Status
  | .PENDING => [.ACTIVE]
  | .ACTIVE => [.IN_COMPLIANCE, .DELINQUENT]
  | .IN_COMPLIANCE => [.DELINQUENT, .DISSOLVED]
  | .DELINQUENT => [.IN_COMPLIANCE, .DISSOLVED]
  | .DISSOLVED => []

/-- `chronos.lifecycle.advance_status`: validates the transition against
`RULES` before mutating.  The error carries the entity as it is at the
raise point (the raise precedes the mutation, so it is the caller's
entity, unchanged). -/
def advance_status (entity : CorporateEntity) (new_status : Status) :
    Except (ChronosError × CorporateEntity) CorporateEntity :=
  let current := entity.status
  if new_status ∈ RULES current then
    .ok { entity with status := new_status }
  else
    .error (.illegalTransition current new_status, entity)

/-- The transition table exactly as the specification states it:
PENDING→ACTIVE; ACTIVE→IN_COMPLIANCE or DELINQUENT; IN_COMPLIANCE→
DELINQUENT or DISSOLVED; DELINQUENT→IN_COMPLIANCE or DISSOLVED;
DISSOLVED terminal.  Stated independently of `RULES` so that agreement
between code and spec table is a theorem, not a definition. -/
def specAllowed : Status → Status → Bool
  | .PENDING, .ACTIVE => true
  | .ACTIVE, .IN_COMPLIANCE => true
  | .ACTIVE, .DELINQUENT => true
  | .IN_COMPLIANCE, .DELINQUENT => true
  | .IN_COMPLIANCE, .DISSOLVED => true
  | .DELINQUENT, .IN_COMPLIANCE => true
  | .DELINQUENT, .DISSOLVED => true
  | _, _ => false

theorem specAllowed_iff_mem_RULES (s t : Status) :
    specAllowed s t = true ↔ t ∈ RULES s := by
  cases s <;> cases t <;> simp [specAllowed, RULES]

/-! ### Insertion-ordered association lists (Python dict model) -/

/-- First-occurrence lookup in an association list (Python `dict.get`). -/
def lookupAssoc {α β : Type} [DecidableEq α] : List (α × β) → α → Option β
  | [], _ => none
  | kv :: rest, k => if kv.1 = k then some kv.2 else lookupAssoc rest k

/-- Update-or-append for an association list (Python `d[k] = v`): an
existing key keeps its position, a fresh key is appended at the end. -/
def setAssoc {α β : Type} [DecidableEq α] : List (α × β) → α → β → List (α × β)
  | [], k, v => [(k, v)]
  | kv :: rest, k, v =>
      if kv.1 = k then (k, v) :: rest else kv :: setAssoc rest k v

theorem lookupAssoc_setAssoc_self {α β : Type} [DecidableEq α]
    (l : List (α × β)) (k : α) (v : β) :
    lookupAssoc (setAssoc l k v) k = some v := by
  induction l with
  | nil => simp [setAssoc, lookupAssoc]
  | cons kv tl ih =>
      by_cases h : kv.1 = k
      · simp [setAssoc, h, lookupAssoc]
      · simp [setAssoc, h, lookupAssoc, ih]

theorem lookupAssoc_setAssoc_ne {α β : Type} [DecidableEq α]
    (l : List (α × β)) (k k' : α) (v : β) (h : k' ≠ k) :
    lookupAssoc (setAssoc l k v) k' = lookupAssoc l k' := by
  have hne : k ≠ k' := Ne.symm h
  induction l with
  | nil => simp [setAssoc, lookupAssoc, hne]
  | cons kv tl ih =>
      by_cases hk : kv.1 = k
      · subst hk
        simp [setAssoc, lookupAssoc, hne]
      · by_cases hk' : kv.1 = k'
        · simp [setAssoc, hk, lookupAssoc, hk', h]
        · simp [setAssoc, hk, lookupAssoc, hk', ih]

theorem mem_of_lookupAssoc_some {α β : Type} [DecidableEq α]
    {l : List (α × β)} {k : α} {v : β} (h : lookupAssoc l k = some v) :
    (k, v) ∈ l := by
  induction l with
  | nil => simp [lookupAssoc] at h
  | cons kv tl ih =>
      by_cases hk : kv.1 = k
      · rw [lookupAssoc, if_pos hk] at h
        injection h with h
        have : (k, v) = kv := by
          obtain ⟨a, b⟩ := kv
          simp only at hk h
          rw [hk, h]
        exact this ▸ List.mem_cons_self _ _
      · rw [lookupAssoc, if_neg hk] at h
        exact List.mem_cons_of_mem _ (ih h)

/-- `setAssoc` either keeps the key set (existing key) or appends the new
key at the end. -/
theorem keys_setAssoc {α β : Type} [DecidableEq α]
    (l : List (α × β)) (k : α) (v : β) :
    (setAssoc l k v).map Prod.fst =
      if k ∈ l.map Prod.fst then l.map Prod.fst else l.map Prod.fst ++ [k] := by
  induction l with
  | nil => simp [setAssoc]
  | cons kv tl ih =>
      by_cases hk : kv.1 = k
      · subst hk
        simp [setAssoc]
      · by_cases hmem : k ∈ tl.map Prod.fst
        · simp [setAssoc, hk, ih, hmem, Ne.symm hk]
        · simp [setAssoc, hk, ih, hmem, Ne.symm hk]

theorem keys_setAssoc_nodup {α β : Type} [DecidableEq α]
    {l : List (α × β)} (k : α) (v : β)
    (h : (l.map Prod.fst).Nodup) : ((setAssoc l k v).map Prod.fst).Nodup := by
  rw [keys_setAssoc]
  by_cases hmem : k ∈ l.map Prod.fst
  · simpa [hmem] using h
  · rw [if_neg hmem]
    rw [List.nodup_append]
    refine ⟨h, List.nodup_singleton _, ?_⟩
    intro a ha hb
    rw [List.mem_singleton] at hb
    exact hmem (hb ▸ ha)

/-- Keys absent from an association list contribute no filtered entries. -/
theorem filter_key_eq_nil {α β : Type} [DecidableEq α]
    {m : List (α × β)} {k : α} (hm : k ∉ m.map Prod.fst) :
    m.filter (fun e => e.1 = k) = [] := by
  induction m with
  | nil => simp
  | cons kv tl ih =>
      simp only [List.map_cons, List.mem_cons, not_or] at hm
      have hne : ¬ (kv.1 = k) := fun e => hm.1 e.symm
      simpa [List.filter_cons, hne] using ih hm.2

/-- With duplicate-free keys, after `setAssoc l k v` exactly one entry
carries key `k`. -/
theorem filter_key_setAssoc_length {α β : Type} [DecidableEq α]
    {l : List (α × β)} (k : α) (v : β) (h : (l.map Prod.fst).Nodup) :
    ((setAssoc l k v).filter (fun e => e.1 = k)).length = 1 := by
  induction l with
  | nil => simp [setAssoc]
  | cons kv tl ih =>
      simp only [List.map_cons, List.nodup_cons] at h
      by_cases hk : kv.1 = k
      · subst hk
        simp [setAssoc, List.filter_cons, filter_key_eq_nil h.1]
      · simpa [setAssoc, hk, List.filter_cons] using ih h.2

/-! ### Slug derivation -/

/-- Python `str.lower()` modelled character-wise. -/
def pyLower (s : String) : String := String.mk (s.data.map Char.toLower)

/-- Python `str.replace(" ", "-")`: a one-character pattern, hence a
character-wise substitution. -/
def pyReplaceSpaceDash (s : String) : String :=
  String.mk (s.data.map (fun c => if c = ' ' then '-' else c))

/-- `PortfolioManager._slug` (`chronos/portfolio.py`):
`name.lower().replace(" ", "-")`. -/
def PortfolioManager.slug (name : String) : String :=
  pyReplaceSpaceDash (pyLower name)

/-- The slug computed inline by `RelationshipGraph.add_entity_data`
(`chronos/relationships.py` line 69): `entity.name.lower().replace(" ", "-")`. -/
def graphSlug (name : String) : String :=
  pyReplaceSpaceDash (pyLower name)

/-! ### Portfolio registry -/

/-- `chronos.portfolio.PortfolioManager`: dict-backed registry keyed by
slug, in insertion order. -/
structure PortfolioManager where
  entities : List (String × CorporateEntity)
deriving DecidableEq, Repr

def PortfolioManager.emptyPM : PortfolioManager := ⟨[]⟩

/-- `PortfolioManager.add`: insert or overwrite keyed by slug. -/
def PortfolioManager.add (pm : PortfolioManager) (ent : CorporateEntity) :
    PortfolioManager :=
  ⟨setAssoc pm.entities (PortfolioManager.slug ent.name) ent⟩

/-- `len(portfolio)`. -/
def PortfolioManager.size (pm : PortfolioManager) : Nat := pm.entities.length

/-- Iteration order over stored entities (`for entity in portfolio`). -/
def PortfolioManager.toList (pm : PortfolioManager) : List CorporateEntity :=
  pm.entities.map Prod.snd

/-! ### Relationship graph -/

/-- The metadata snapshot stored by `add_entity_data`: status is the
enum *name string*, exactly as the Python dict stores `entity.status.name`
and the shell heuristic compares it with `"ACTIVE"`. -/
structure Snapshot where
  name : String
  jurisdiction : String
  status : String
  formed : Option String
deriving DecidableEq, Repr

/-- ISO date string for the snapshot's `formed` field; the claims under
verification never inspect its contents, only pass it through, so the
ordinal day is rendered digit-faithfully via `toString`. -/
def isoOfOrdinal (d : Int) : String := toString d

/-- `chronos.relationships.RelationshipGraph`: a NetworkX `DiGraph`
wrapper.  `nodes` is the node list in insertion order (no duplicates are
ever created by the operations below), `edges` the association list of
`(parent, child) ↦ pct` in insertion order, `entityData` the metadata
snapshot dict. -/
structure RelationshipGraph where
  nodes : List String
  edges : List ((String × String) × ℚ)
  entityData : List (String × Snapshot)
deriving DecidableEq, Repr

/-- `RelationshipGraph.__init__`. -/
def RelationshipGraph.emptyRG : RelationshipGraph := ⟨[], [], []⟩

/-- `g.add_node(n)`: no-op when present, else appended. -/
def RelationshipGraph.addNode (g : RelationshipGraph) (n : String) :
    RelationshipGraph :=
  if n ∈ g.nodes then g else { g with nodes := g.nodes ++ [n] }

/-- `RelationshipGraph.link_parent`: validates `0.0 <= pct <= 100.0`
(raising `ValueError` before any mutation — the error carries the graph
as it stands at the raise point), ensures both nodes exist, then
`add_edge` creates or overwrites the edge attribute. -/
def RelationshipGraph.link_parent (g : RelationshipGraph)
    (parent child : String) (pct : ℚ) :
    Except (ChronosError × RelationshipGraph) RelationshipGraph :=
  if ¬ (0 ≤ pct ∧ pct ≤ 100) then
    .error (.validationError "pct must be between 0 and 100", g)
  else
    let g1 := g.addNode parent
    let g2 := g1.addNode child
    .ok { g2 with edges := setAssoc g2.edges (parent, child) pct }

/-- `RelationshipGraph.subsidiaries`: direct successors, in edge
insertion order. -/
def RelationshipGraph.subsidiaries (g : RelationshipGraph) (parent : String) :
    List String :=
  g.edges.filterMap (fun e => if e.1.1 = parent then some e.1.2 else none)

/-- `RelationshipGraph.parents`: direct predecessors, in edge insertion
order. -/
def RelationshipGraph.parents (g : RelationshipGraph) (child : String) :
    List String :=
  g.edges.filterMap (fun e => if e.1.2 = child then some e.1.1 else none)

/-- `RelationshipGraph.ownership_pct`: stored percentage, `KeyError`
(spec: `NotFoundError`) when the edge is missing. -/
def RelationshipGraph.ownership_pct (g : RelationshipGraph)
    (parent child : String) : Except ChronosError ℚ :=
  match lookupAssoc g.edges (parent, child) with
  | some v => .ok v
  | none => .error .notFound

/-- `RelationshipGraph.add_entity_data`: store/overwrite the snapshot
keyed by slug, then ensure the node exists. -/
def RelationshipGraph.add_entity_data (g : RelationshipGraph)
    (entity : CorporateEntity) : RelationshipGraph :=
  let slug := graphSlug entity.name
  let snap : Snapshot :=
    { name := entity.name, jurisdiction := entity.jurisdiction,
      status := entity.status.pyName,
      formed := some (isoOfOrdinal entity.formed) }
  let g' := { g with entityData := setAssoc g.entityData slug snap }
  g'.addNode slug

/-- `RelationshipGraph.get_entity_data`. -/
def RelationshipGraph.get_entity_data (g : RelationshipGraph)
    (slug : String) : Option Snapshot :=
  lookupAssoc g.entityData slug

/-- One entry of the `nodes` array of `to_json()`. -/
structure JsonNode where
  id : String
  name : String
  status : String
  jurisdiction : String
  type : String
deriving DecidableEq, Repr

/-- One entry of the `links` array of `to_json()`. -/
structure JsonLink where
  source : String
  target : String
  value : ℚ
deriving DecidableEq, Repr

/-- The dict returned by `to_json()`. -/
structure JsonGraph where
  nodes : List JsonNode
  links : List JsonLink
deriving DecidableEq, Repr

/-- `RelationshipGraph.to_json`: per node, the snapshot or the fallback
dict `{"name": node, "status": "UNKNOWN"}` (whose missing
`"jurisdiction"` key makes `.get("jurisdiction", "")` yield `""`), with
`type` `"PRIMARY"` exactly when `parents(node)` is empty; per edge, a
link carrying the stored `pct`. -/
def RelationshipGraph.to_json (g : RelationshipGraph) : JsonGraph :=
  { nodes := g.nodes.map (fun node =>
      match g.get_entity_data node with
      | some d =>
          { id := node, name := d.name, status := d.status,
            jurisdiction := d.jurisdiction,
            type := if g.parents node = [] then "PRIMARY" else "SUBSIDIARY" }
      | none =>
          { id := node, name := node, status := "UNKNOWN",
            jurisdiction := "",
            type := if g.parents node = [] then "PRIMARY" else "SUBSIDIARY" }),
    links := g.edges.map (fun e =>
      { source := e.1.1, target := e.1.2, value := e.2 }) }

/-! ### Shell-company risk scoring -/

/-- One record of the `identify_shell_companies()` output. -/
structure ShellRecord where
  slug : String
  name : String
  risk_score : ℚ
deriving DecidableEq, Repr

/-- The reporting threshold (`risk_score >= 0.3` in the source). -/
def REPORT_THRESHOLD : ℚ := 3 / 10

/-- Factor 2 of the heuristic:
`len(parents(node)) == 1 and len(subsidiaries(parents(node)[0])) == 1`. -/
def RelationshipGraph.factor2 (g : RelationshipGraph) (node : String) : Bool :=
  match g.parents node with
  | [p] => (g.subsidiaries p).length == 1
  | _ => false

/-- The accumulated risk score of a node carrying snapshot `d`:
+0.3 for no subsidiaries but owned, +0.2 for the single-child ownership
chain, +0.1 for ACTIVE status with no subsidiaries. -/
def RelationshipGraph.riskScore (g : RelationshipGraph) (node : String)
    (d : Snapshot) : ℚ :=
  (if (g.subsidiaries node).length = 0 ∧ 0 < (g.parents node).length
     then 3 / 10 else 0)
  + (if g.factor2 node then 2 / 10 else 0)
  + (if d.status = "ACTIVE" ∧ (g.subsidiaries node).length = 0
     then 1 / 10 else 0)

/-- The `shells` list built by the loop in `identify_shell_companies`,
in node encounter order: nodes without a snapshot are skipped
(`continue`), and only scores reaching the threshold are appended. -/
def RelationshipGraph.shellCandidates (g : RelationshipGraph) :
    List ShellRecord :=
  g.nodes.filterMap (fun node =>
    match g.get_entity_data node with
    | none => none
    | some d =>
        let risk := g.riskScore node d
        if REPORT_THRESHOLD ≤ risk then
          some { slug := node, name := d.name, risk_score := risk }
        else none)

/-- Stable insertion step for descending order by `risk_score`: the new
element (earlier in encounter order than everything already placed) goes
in front of the first element whose score does not exceed it, so equal
scores keep encounter order. -/
def insertDesc (x : ShellRecord) : List ShellRecord → List ShellRecord
  | [] => [x]
  | y :: ys =>
      if y.risk_score ≤ x.risk_score then x :: y :: ys
      else y :: insertDesc x ys

/-- Model of Python's `sorted(shells, key=lambda x: x["risk_score"],
reverse=True)`: a stable sort, descending by score.  Any two stable
descending sorts by the same key agree extensionally, so insertion sort
is a faithful model of Timsort here. -/
def sortByRiskDesc : List ShellRecord → List ShellRecord
  | [] => []
  | x :: xs => insertDesc x (sortByRiskDesc xs)

/-- `RelationshipGraph.identify_shell_companies`. -/
def RelationshipGraph.identify_shell_companies (g : RelationshipGraph) :
    List ShellRecord :=
  sortByRiskDesc g.shellCandidates

/-! ### Graph reset (`api/clear_graph.py`) -/

/-- `api.clear_graph.clear_graph`: builds a fresh `RelationshipGraph`,
re-adds metadata for every portfolio entity (no edges), and installs the
fresh graph in place of the old one.  The portfolio is only iterated,
never written.  Returned as (portfolio after, graph after). -/
def clear_graph (portfolio : PortfolioManager) (_old : RelationshipGraph) :
    PortfolioManager × RelationshipGraph :=
  let fresh := RelationshipGraph.emptyRG
  let fresh := portfolio.toList.foldl
    (fun acc ent => acc.add_entity_data ent) fresh
  (portfolio, fresh)

/-! ### Properties of the stable descending sort -/

theorem insertDesc_perm (x : ShellRecord) (l : List ShellRecord) :
    List.Perm (insertDesc x l) (x :: l) := by
  induction l with
  | nil => simp [insertDesc]
  | cons y ys ih =>
      by_cases h : y.risk_score ≤ x.risk_score
      · simp [insertDesc, h]
      · rw [insertDesc, if_neg h]
        exact (List.Perm.cons y ih).trans (List.Perm.swap x y ys)

theorem sortByRiskDesc_perm (l : List ShellRecord) :
    List.Perm (sortByRiskDesc l) l := by
  induction l with
  | nil => simp [sortByRiskDesc]
  | cons x xs ih =>
      exact (insertDesc_perm x (sortByRiskDesc xs)).trans (List.Perm.cons x ih)

theorem insertDesc_sorted (x : ShellRecord) (l : List ShellRecord)
    (h : l.Pairwise (fun a b => b.risk_score ≤ a.risk_score)) :
    (insertDesc x l).Pairwise (fun a b => b.risk_score ≤ a.risk_score) := by
  induction l with
  | nil => simp [insertDesc]
  | cons y ys ih =>
      rw [List.pairwise_cons] at h
      by_cases hc : y.risk_score ≤ x.risk_score
      · rw [insertDesc, if_pos hc]
        refine List.Pairwise.cons ?_ (List.Pairwise.cons h.1 h.2)
        intro b hb
        rcases List.mem_cons.mp hb with rfl | hb
        · exact hc
        · exact le_trans (h.1 b hb) hc
      · rw [insertDesc, if_neg hc]
        refine List.Pairwise.cons ?_ (ih h.2)
        intro b hb
        have hb' : b ∈ x :: ys := (insertDesc_perm x ys).mem_iff.mp hb
        rcases List.mem_cons.mp hb' with rfl | hb2
        · exact le_of_not_le hc
        · exact h.1 b hb2

theorem sortByRiskDesc_sorted (l : List ShellRecord) :
    (sortByRiskDesc l).Pairwise (fun a b => b.risk_score ≤ a.risk_score) := by
  induction l with
  | nil => simp [sortByRiskDesc]
  | cons x xs ih => exact insertDesc_sorted x (sortByRiskDesc xs) ih

theorem filter_insertDesc (x : ShellRecord) (l : List ShellRecord) (q : ℚ) :
    (insertDesc x l).filter (fun r => r.risk_score = q) =
      if x.risk_score = q then x :: l.filter (fun r => r.risk_score = q)
      else l.filter (fun r => r.risk_score = q) := by
  induction l with
  | nil =>
      by_cases hx : x.risk_score = q <;> simp [insertDesc, hx]
  | cons y ys ih =>
      by_cases hc : y.risk_score ≤ x.risk_score
      · rw [insertDesc, if_pos hc]
        by_cases hx : x.risk_score = q <;>
          simp [List.filter_cons, hx]
      · rw [insertDesc, if_neg hc]
        have hlt : x.risk_score < y.risk_score := lt_of_not_le hc
        by_cases hy : y.risk_score = q
        · have hx : ¬ (x.risk_score = q) := by
            intro hq
            rw [hq, hy] at hlt
            exact lt_irrefl q hlt
          simp [List.filter_cons, hy, ih, hx]
        · by_cases hx : x.risk_score = q <;>
            simp [List.filter_cons, hy, ih, hx]

/-- Stability of the sort, stated as: for every score value, the records
carrying that score appear in the output in exactly their input order. -/
theorem filter_sortByRiskDesc (l : List ShellRecord) (q : ℚ) :
    (sortByRiskDesc l).filter (fun r => r.risk_score = q) =
      l.filter (fun r => r.risk_score = q) := by
  induction l with
  | nil => simp [sortByRiskDesc]
  | cons x xs ih =>
      rw [sortByRiskDesc, filter_insertDesc]
      by_cases hx : x.risk_score = q <;> simp [List.filter_cons, hx, ih]

/-! ### Properties of the graph operations -/

theorem addNode_edges (g : RelationshipGraph) (m : String) :
    (g.addNode m).edges = g.edges := by
  rw [RelationshipGraph.addNode]
  split <;> rfl

theorem addNode_entityData (g : RelationshipGraph) (m : String) :
    (g.addNode m).entityData = g.entityData := by
  rw [RelationshipGraph.addNode]
  split <;> rfl

theorem mem_addNode (g : RelationshipGraph) (m n : String) :
    n ∈ (g.addNode m).nodes ↔ n ∈ g.nodes ∨ n = m := by
  by_cases h : m ∈ g.nodes
  · rw [RelationshipGraph.addNode, if_pos h]
    constructor
    · exact Or.inl
    · rintro (hn | rfl)
      · exact hn
      · exact h
  · rw [RelationshipGraph.addNode, if_neg h]
    simp

theorem add_entity_data_edges (g : RelationshipGraph) (e : CorporateEntity) :
    (g.add_entity_data e).edges = g.edges := by
  rw [RelationshipGraph.add_entity_data]
  exact addNode_edges _ _

theorem add_entity_data_entityData (g : RelationshipGraph)
    (e : CorporateEntity) :
    (g.add_entity_data e).entityData =
      setAssoc g.entityData (graphSlug e.name)
        { name := e.name, jurisdiction := e.jurisdiction,
          status := e.status.pyName,
          formed := some (isoOfOrdinal e.formed) } := by
  rw [RelationshipGraph.add_entity_data]
  exact addNode_entityData _ _

theorem mem_add_entity_data_nodes (g : RelationshipGraph)
    (e : CorporateEntity) (n : String) :
    n ∈ (g.add_entity_data e).nodes ↔
      n ∈ g.nodes ∨ n = graphSlug e.name := by
  rw [RelationshipGraph.add_entity_data]
  exact mem_addNode _ _ _

theorem factor2_parents_length {g : RelationshipGraph} {node : String}
    (h : g.factor2 node = true) : (g.parents node).length = 1 := by
  rw [RelationshipGraph.factor2] at h
  cases hp : g.parents node with
  | nil => rw [hp] at h; simp at h
  | cons a t =>
      cases t with
      | nil => simp
      | cons b t' => rw [hp] at h; simp at h

/-- The standard success equation for `link_parent`. -/
theorem link_parent_ok (g : RelationshipGraph) (p c : String) (pct : ℚ)
    (h : 0 ≤ pct ∧ pct ≤ 100) :
    g.link_parent p c pct =
      .ok { nodes := ((g.addNode p).addNode c).nodes,
            edges := setAssoc g.edges (p, c) pct,
            entityData := g.entityData } := by
  rw [RelationshipGraph.link_parent, if_neg (not_not_intro h)]
  have he : ((g.addNode p).addNode c).edges = g.edges := by
    rw [addNode_edges, addNode_edges]
  have hd : ((g.addNode p).addNode c).entityData = g.entityData := by
    rw [addNode_entityData, addNode_entityData]
  simp only [he, hd]

theorem foldl_add_entity_data_edges (es : List CorporateEntity)
    (acc : RelationshipGraph) :
    (es.foldl (fun a e => a.add_entity_data e) acc).edges = acc.edges := by
  induction es generalizing acc with
  | nil => rfl
  | cons e tl ih => rw [List.foldl_cons, ih, add_entity_data_edges]

theorem foldl_add_entity_data_mem_nodes (es : List CorporateEntity)
    (acc : RelationshipGraph) (n : String) :
    n ∈ (es.foldl (fun a e => a.add_entity_data e) acc).nodes ↔
      n ∈ acc.nodes ∨ ∃ e ∈ es, graphSlug e.name = n := by
  induction es generalizing acc with
  | nil => simp
  | cons e tl ih =>
      rw [List.foldl_cons, ih (acc.add_entity_data e),
        mem_add_entity_data_nodes]
      constructor
      · rintro ((h | h) | ⟨e', he', hs⟩)
        · exact Or.inl h
        · exact Or.inr ⟨e, List.mem_cons_self e tl, h.symm⟩
        · exact Or.inr ⟨e', List.mem_cons_of_mem _ he', hs⟩
      · rintro (h | ⟨e', he', hs⟩)
        · exact Or.inl (Or.inl h)
        · rcases List.mem_cons.mp he' with rfl | he2
          · exact Or.inl (Or.inr hs.symm)
          · exact Or.inr ⟨e', he2, hs⟩

theorem foldl_add_entity_data_snapshot (es : List CorporateEntity)
    (acc : RelationshipGraph) (n : String) :
    (lookupAssoc (es.foldl (fun a e => a.add_entity_data e) acc).entityData
        n).isSome = true ↔
      (lookupAssoc acc.entityData n).isSome = true ∨
        ∃ e ∈ es, graphSlug e.name = n := by
  induction es generalizing acc with
  | nil => simp
  | cons e tl ih =>
      rw [List.foldl_cons, ih (acc.add_entity_data e),
        add_entity_data_entityData]
      by_cases hn : n = graphSlug e.name
      · subst hn
        rw [lookupAssoc_setAssoc_self]
        simp
      · rw [lookupAssoc_setAssoc_ne _ _ _ _ hn]
        constructor
        · rintro (h | ⟨e', he', hs⟩)
          · exact Or.inl h
          · exact Or.inr ⟨e', List.mem_cons_of_mem _ he', hs⟩
        · rintro (h | ⟨e', he', hs⟩)
          · exact Or.inl h
          · rcases List.mem_cons.mp he' with rfl | he2
            · exact absurd hs.symm hn
            · exact Or.inr ⟨e', he2, hs⟩

/-! ### Claim theorems -/

/-- C2: for every entity and pair of statuses, `advance_status` succeeds
exactly on the pairs of the transition table (PENDING→ACTIVE;
ACTIVE→IN_COMPLIANCE/DELINQUENT; IN_COMPLIANCE→DELINQUENT/DISSOLVED;
DELINQUENT→IN_COMPLIANCE/DISSOLVED; DISSOLVED terminal), setting exactly
the status field; on every other pair it raises an
`IllegalTransitionError` carrying source and target, with the entity
unchanged at the raise point. -/
theorem advance_status_spec (e : CorporateEntity) (t : Status) :
    (specAllowed e.status t = true →
      advance_status e t = .ok { e with status := t }) ∧
    (specAllowed e.status t = false →
      advance_status e t = .error (.illegalTransition e.status t, e)) := by
  constructor
  · intro h
    rw [specAllowed_iff_mem_RULES] at h
    simp [advance_status, h]
  · intro h
    have h' : t ∉ RULES e.status := by
      rw [← specAllowed_iff_mem_RULES, h]
      simp
    simp [advance_status, h']

/-- Witness for C2: a legal transition applied at a concrete entity. -/
theorem advance_status_spec_witness :
    specAllowed Status.PENDING Status.ACTIVE = true ∧
    advance_status
        { name := "Foo LLC", jurisdiction := "DE", formed := 0,
          officers := [], status := .PENDING, notes := none } .ACTIVE =
      .ok { name := "Foo LLC", jurisdiction := "DE", formed := 0,
            officers := [], status := .ACTIVE, notes := none } :=
  ⟨rfl, by
    exact (advance_status_spec
      { name := "Foo LLC", jurisdiction := "DE", formed := 0,
        officers := [], status := .PENDING, notes := none } .ACTIVE).1 rfl⟩

/-- C4: constructing an entity fails with a `ValidationError` exactly
when `formed` is strictly after the current date; otherwise construction
succeeds and the status defaults to `PENDING`. -/
theorem entity_construction_formed_guard (name jur : String)
    (formed today : Int) :
    ((∃ msg, mkEntityDefault name jur formed today =
        .error (.validationError msg)) ↔ today < formed) ∧
    (formed ≤ today →
      mkEntityDefault name jur formed today =
        .ok { name := name, jurisdiction := jur, formed := formed,
              officers := [], status := .PENDING, notes := none }) := by
  constructor
  · constructor
    · rintro ⟨msg, h⟩
      by_contra hle
      push_neg at hle
      simp [mkEntityDefault, mkCorporateEntity, not_lt.mpr hle] at h
    · intro h
      exact ⟨"formed date cannot be in the future",
        by simp [mkEntityDefault, mkCorporateEntity, h]⟩
  · intro h
    simp [mkEntityDefault, mkCorporateEntity, not_lt.mpr h]

/-- Witness for C4: a past formation date accepted at a concrete input. -/
theorem entity_construction_formed_guard_witness :
    (5 : Int) ≤ 10 ∧
    mkEntityDefault "Foo LLC" "DE" 5 10 =
      .ok { name := "Foo LLC", jurisdiction := "DE", formed := 5,
            officers := [], status := .PENDING, notes := none } :=
  ⟨by norm_num,
   (entity_construction_formed_guard "Foo LLC" "DE" 5 10).2 (by norm_num)⟩

/-- C5: the slug derivation is the same pure function
`lowercase(n)` with each space replaced by a hyphen in both the
Portfolio Registry and the Relationship Graph, and equal names always
yield equal slugs. -/
theorem slug_determinism (n : String) :
    PortfolioManager.slug n = graphSlug n ∧
    PortfolioManager.slug n = pyReplaceSpaceDash (pyLower n) ∧
    (PortfolioManager.slug n).data =
      n.data.map
        (fun c => if Char.toLower c = ' ' then '-' else Char.toLower c) ∧
    ∀ m : String, n = m →
      PortfolioManager.slug n = PortfolioManager.slug m := by
  refine ⟨rfl, rfl, ?_, fun m h => h ▸ rfl⟩
  rw [PortfolioManager.slug, pyReplaceSpaceDash, pyLower]
  show ((n.data.map Char.toLower).map
      (fun c => if c = ' ' then '-' else c)) = _
  rw [List.map_map]
  rfl

/-- Witness for C5: determinism instantiated at a concrete name. -/
theorem slug_determinism_witness :
    PortfolioManager.slug "Acme Holdings" =
      PortfolioManager.slug "Acme Holdings" :=
  (slug_determinism "Acme Holdings").2.2.2 "Acme Holdings" rfl

/-- C3: `link_parent` with an out-of-range percentage raises a
`ValidationError` with the graph exactly as it was (the error value
carries the graph at the raise point); an in-range percentage succeeds,
auto-creates missing nodes for parent and child only, and creates or
overwrites the single directed edge parent→child, leaving every other
edge and all metadata untouched. -/
theorem link_parent_validation (g : RelationshipGraph) (p c : String)
    (pct : ℚ) :
    (¬ (0 ≤ pct ∧ pct ≤ 100) →
      g.link_parent p c pct =
        .error (.validationError "pct must be between 0 and 100", g)) ∧
    (0 ≤ pct ∧ pct ≤ 100 →
      ∃ g', g.link_parent p c pct = .ok g' ∧
        p ∈ g'.nodes ∧ c ∈ g'.nodes ∧
        (∀ n, n ∈ g'.nodes ↔ n ∈ g.nodes ∨ n = p ∨ n = c) ∧
        lookupAssoc g'.edges (p, c) = some pct ∧
        (∀ k, k ≠ (p, c) →
          lookupAssoc g'.edges k = lookupAssoc g.edges k) ∧
        g'.entityData = g.entityData) := by
  constructor
  · intro h
    rw [RelationshipGraph.link_parent, if_pos h]
  · intro h
    refine ⟨_, link_parent_ok g p c pct h, ?_, ?_, ?_, ?_, ?_, rfl⟩
    · exact (mem_addNode _ c p).mpr
        (Or.inl ((mem_addNode g p p).mpr (Or.inr rfl)))
    · exact (mem_addNode _ c c).mpr (Or.inr rfl)
    · intro n
      rw [mem_addNode, mem_addNode, or_assoc]
    · exact lookupAssoc_setAssoc_self g.edges (p, c) pct
    · intro k hk
      exact lookupAssoc_setAssoc_ne g.edges (p, c) k pct hk

/-- Witness for C3: a successful in-range link at a concrete input. -/
theorem link_parent_validation_witness :
    ((0 : ℚ) ≤ 50 ∧ (50 : ℚ) ≤ 100) ∧
    ∃ g', RelationshipGraph.emptyRG.link_parent "holdco" "opco" 50 =
        .ok g' ∧
      "holdco" ∈ g'.nodes ∧ "opco" ∈ g'.nodes ∧
      (∀ n, n ∈ g'.nodes ↔
        n ∈ RelationshipGraph.emptyRG.nodes ∨ n = "holdco" ∨ n = "opco") ∧
      lookupAssoc g'.edges ("holdco", "opco") = some 50 ∧
      (∀ k, k ≠ ("holdco", "opco") →
        lookupAssoc g'.edges k =
          lookupAssoc RelationshipGraph.emptyRG.edges k) ∧
      g'.entityData = RelationshipGraph.emptyRG.entityData :=
  ⟨by norm_num,
   (link_parent_validation RelationshipGraph.emptyRG "holdco" "opco" 50).2
     (by norm_num)⟩

/-- C10: a self-loop is accepted by `link_parent`: linking a slug to
itself with an in-range percentage succeeds, the slug then lists itself
among both its subsidiaries and its parents, and `ownership_pct` returns
the stored percentage. -/
theorem self_loop_allowed (g : RelationshipGraph) (s : String) (pct : ℚ)
    (h0 : 0 ≤ pct) (h1 : pct ≤ 100) :
    ∃ g', g.link_parent s s pct = .ok g' ∧
      s ∈ g'.subsidiaries s ∧ s ∈ g'.parents s ∧
      g'.ownership_pct s s = .ok pct := by
  refine ⟨_, link_parent_ok g s s pct ⟨h0, h1⟩, ?_, ?_, ?_⟩
  · have hmem : ((s, s), pct) ∈ setAssoc g.edges (s, s) pct :=
      mem_of_lookupAssoc_some (lookupAssoc_setAssoc_self g.edges (s, s) pct)
    exact List.mem_filterMap.mpr ⟨((s, s), pct), hmem, by simp⟩
  · have hmem : ((s, s), pct) ∈ setAssoc g.edges (s, s) pct :=
      mem_of_lookupAssoc_some (lookupAssoc_setAssoc_self g.edges (s, s) pct)
    exact List.mem_filterMap.mpr ⟨((s, s), pct), hmem, by simp⟩
  · rw [RelationshipGraph.ownership_pct]
    show (match lookupAssoc (setAssoc g.edges (s, s) pct) (s, s) with
      | some v => Except.ok v
      | none => Except.error ChronosError.notFound) = Except.ok pct
    rw [lookupAssoc_setAssoc_self]

/-- Witness for C10: a concrete self-loop. -/
theorem self_loop_allowed_witness :
    (0 : ℚ) ≤ 50 ∧ (50 : ℚ) ≤ 100 ∧
    ∃ g', RelationshipGraph.emptyRG.link_parent "acme" "acme" 50 = .ok g' ∧
      "acme" ∈ g'.subsidiaries "acme" ∧ "acme" ∈ g'.parents "acme" ∧
      g'.ownership_pct "acme" "acme" = .ok 50 :=
  ⟨by norm_num, by norm_num,
   self_loop_allowed RelationshipGraph.emptyRG "acme" 50
     (by norm_num) (by norm_num)⟩

/-- C6: when the edge keys are duplicate-free (an invariant of NetworkX
digraphs, preserved by every operation here), linking the same ordered
pair twice with in-range percentages leaves exactly one parent→child
edge, storing the second percentage, and `ownership_pct` returns it. -/
theorem relink_overwrites (g : RelationshipGraph) (p c : String) (x y : ℚ)
    (hg : (g.edges.map Prod.fst).Nodup)
    (hx : 0 ≤ x ∧ x ≤ 100) (hy : 0 ≤ y ∧ y ≤ 100) :
    ∃ g1 g2, g.link_parent p c x = .ok g1 ∧
      g1.link_parent p c y = .ok g2 ∧
      (g2.edges.filter (fun e => e.1 = (p, c))).length = 1 ∧
      lookupAssoc g2.edges (p, c) = some y ∧
      g2.ownership_pct p c = .ok y := by
  refine ⟨_, _, link_parent_ok g p c x hx, link_parent_ok _ p c y hy,
    ?_, ?_, ?_⟩
  · exact filter_key_setAssoc_length (p, c) y
      (keys_setAssoc_nodup (p, c) x hg)
  · exact lookupAssoc_setAssoc_self _ (p, c) y
  · rw [RelationshipGraph.ownership_pct]
    show (match lookupAssoc (setAssoc (setAssoc g.edges (p, c) x) (p, c) y)
        (p, c) with
      | some v => Except.ok v
      | none => Except.error ChronosError.notFound) = Except.ok y
    rw [lookupAssoc_setAssoc_self]

/-- Witness for C6: the spec's 50-then-75 relink on a concrete graph. -/
theorem relink_overwrites_witness :
    (RelationshipGraph.emptyRG.edges.map Prod.fst).Nodup ∧
    ∃ g1 g2,
      RelationshipGraph.emptyRG.link_parent "holdco" "opco" 50 = .ok g1 ∧
      g1.link_parent "holdco" "opco" 75 = .ok g2 ∧
      (g2.edges.filter (fun e => e.1 = ("holdco", "opco"))).length = 1 ∧
      lookupAssoc g2.edges ("holdco", "opco") = some 75 ∧
      g2.ownership_pct "holdco" "opco" = .ok 75 :=
  ⟨by simp [RelationshipGraph.emptyRG],
   relink_overwrites RelationshipGraph.emptyRG "holdco" "opco" 50 75
     (by simp [RelationshipGraph.emptyRG]) (by norm_num) (by norm_num)⟩

/-- C7: `to_json` emits one node record per node and one link per edge;
a node is typed `"PRIMARY"` exactly when it has no parents; a node
without a snapshot still appears with its slug as name and status
`"UNKNOWN"`; every link carries the stored percentage of its edge; and
for a two-node graph with a single edge the output is exactly one link
with the stored pct, two nodes, and the parentless node typed PRIMARY. -/
theorem to_json_spec (g : RelationshipGraph) :
    g.to_json.nodes.length = g.nodes.length ∧
    g.to_json.links.length = g.edges.length ∧
    (∀ jn ∈ g.to_json.nodes,
      (jn.type = "PRIMARY" ↔ g.parents jn.id = [])) ∧
    (∀ n ∈ g.nodes, g.get_entity_data n = none →
      ∃ jn ∈ g.to_json.nodes,
        jn.id = n ∧ jn.name = n ∧ jn.status = "UNKNOWN") ∧
    (∀ lk ∈ g.to_json.links,
      ((lk.source, lk.target), lk.value) ∈ g.edges) ∧
    (∀ e ∈ g.edges,
      ({ source := e.1.1, target := e.1.2, value := e.2 } : JsonLink)
        ∈ g.to_json.links) ∧
    (∀ p c v, g.nodes = [p, c] → g.edges = [((p, c), v)] → p ≠ c →
      g.to_json.links = [{ source := p, target := c, value := v }] ∧
      g.to_json.nodes.length = 2 ∧
      ∃ jn ∈ g.to_json.nodes, jn.id = p ∧ jn.type = "PRIMARY") := by
  have hPS : ("SUBSIDIARY" : String) ≠ "PRIMARY" := by decide
  refine ⟨?_, ?_, ?_, ?_, ?_, ?_, ?_⟩
  · simp [RelationshipGraph.to_json]
  · simp [RelationshipGraph.to_json]
  · intro jn hjn
    obtain ⟨n, hn, hEq⟩ :=
      List.mem_map.mp (by simpa [RelationshipGraph.to_json] using hjn)
    subst hEq
    cases hd : g.get_entity_data n <;>
      by_cases hp : g.parents n = [] <;>
        simp [hd, hp, hPS]
  · intro n hn hnone
    refine ⟨_, List.mem_map_of_mem _ hn, ?_⟩
    simp [hnone]
  · intro lk hlk
    have hlk' : lk ∈ g.edges.map (fun e =>
        ({ source := e.1.1, target := e.1.2, value := e.2 } : JsonLink)) :=
      hlk
    obtain ⟨e, he, hEq⟩ := List.mem_map.mp hlk'
    subst hEq
    exact he
  · intro e he
    exact List.mem_map_of_mem _ he
  · intro p c v hn he hne
    have hpar : g.parents p = [] := by
      rw [RelationshipGraph.parents, he]
      simp [Ne.symm hne]
    refine ⟨?_, ?_, ?_⟩
    · simp [RelationshipGraph.to_json, he]
    · simp [RelationshipGraph.to_json, hn]
    · have hpmem : p ∈ g.nodes := by rw [hn]; exact List.mem_cons_self _ _
      refine ⟨_, List.mem_map_of_mem _ hpmem, ?_⟩
      cases hd : g.get_entity_data p <;> simp [hd, hpar]

/-- A concrete holding company used in witnesses and counterexamples. -/
def acmeHoldings : CorporateEntity :=
  { name := "Acme Holdings", jurisdiction := "DE", formed := 100,
    officers := [], status := .ACTIVE, notes := none }

/-- A concrete operating company used in witnesses and counterexamples. -/
def acmeOpco : CorporateEntity :=
  { name := "Acme OpCo", jurisdiction := "DE", formed := 200,
    officers := [], status := .ACTIVE, notes := none }

/-- The spec's end-to-end scenario graph: both entities registered with
metadata, `acme-holdings` owning 100% of `acme-opco`. -/
def acmeGraph : RelationshipGraph :=
  match ((RelationshipGraph.emptyRG.add_entity_data
      acmeHoldings).add_entity_data acmeOpco).link_parent
      "acme-holdings" "acme-opco" 100 with
  | .ok g => g
  | .error e => e.2

/-- Witness for C7: the one-edge conjunct at a concrete graph. -/
theorem to_json_spec_witness :
    (({ nodes := ["holdco", "opco"], edges := [(("holdco", "opco"), 100)],
        entityData := [] } : RelationshipGraph).nodes = ["holdco", "opco"]) ∧
    ({ nodes := ["holdco", "opco"], edges := [(("holdco", "opco"), 100)],
       entityData := [] } : RelationshipGraph).to_json.links =
      [{ source := "holdco", target := "opco", value := 100 }] ∧
    ({ nodes := ["holdco", "opco"], edges := [(("holdco", "opco"), 100)],
       entityData := [] } : RelationshipGraph).to_json.nodes.length = 2 ∧
    ∃ jn ∈ ({ nodes := ["holdco", "opco"],
              edges := [(("holdco", "opco"), 100)],
              entityData := [] } : RelationshipGraph).to_json.nodes,
      jn.id = "holdco" ∧ jn.type = "PRIMARY" :=
  ⟨rfl,
   (to_json_spec
      { nodes := ["holdco", "opco"], edges := [(("holdco", "opco"), 100)],
        entityData := [] }).2.2.2.2.2.2 "holdco" "opco" 100 rfl rfl
     (by decide)⟩

/-- Counterexample for C8 as stated: with one entity in the registry,
the clearing operation of `api/clear_graph.py` leaves the graph with a
node and a metadata snapshot (it re-adds every portfolio entity), so it
does not remove all nodes and all metadata. -/
theorem clear_graph_claim_counterexample :
    (clear_graph ⟨[("acme-holdings", acmeHoldings)]⟩
        RelationshipGraph.emptyRG).2.nodes ≠ [] ∧
    (clear_graph ⟨[("acme-holdings", acmeHoldings)]⟩
        RelationshipGraph.emptyRG).2.entityData ≠ [] := by
  constructor <;> decide

/-- C8 (amended): clearing the graph discards all previous edges, nodes
and metadata, replacing the graph by a fresh one that holds no edges and
exactly one node and one metadata snapshot per portfolio entity; the
Portfolio Registry is untouched (same stored entities, same length). -/
theorem clear_graph_amended_spec (pm : PortfolioManager)
    (g : RelationshipGraph) :
    (clear_graph pm g).1 = pm ∧
    (clear_graph pm g).1.size = pm.size ∧
    (clear_graph pm g).2.edges = [] ∧
    (∀ n, n ∈ (clear_graph pm g).2.nodes ↔
      ∃ e ∈ pm.toList, graphSlug e.name = n) ∧
    (∀ n, ((clear_graph pm g).2.get_entity_data n).isSome = true ↔
      ∃ e ∈ pm.toList, graphSlug e.name = n) := by
  have h2 : (clear_graph pm g).2 =
      pm.toList.foldl (fun a e => a.add_entity_data e)
        RelationshipGraph.emptyRG := rfl
  refine ⟨rfl, rfl, ?_, ?_, ?_⟩
  · rw [h2]
    exact foldl_add_entity_data_edges _ _
  · intro n
    rw [h2, foldl_add_entity_data_mem_nodes]
    simp [RelationshipGraph.emptyRG]
  · intro n
    rw [h2, RelationshipGraph.get_entity_data,
      foldl_add_entity_data_snapshot]
    simp [RelationshipGraph.emptyRG, lookupAssoc]

/-- The fully evaluated form of `acmeGraph`. -/
def acmeLit : RelationshipGraph :=
  { nodes := ["acme-holdings", "acme-opco"],
    edges := [(("acme-holdings", "acme-opco"), 100)],
    entityData :=
      [("acme-holdings", ⟨"Acme Holdings", "DE", "ACTIVE", some "100"⟩),
       ("acme-opco", ⟨"Acme OpCo", "DE", "ACTIVE", some "200"⟩)] }

/-- The accumulated score is always one of the seven sums of subsets of
the three weights (factors 2 and 3 without factor 1 cannot in fact
co-occur, but even the raw enumeration suffices below). -/
theorem riskScore_value_cases (g : RelationshipGraph) (node : String)
    (d : Snapshot) :
    g.riskScore node d = 0 ∨ g.riskScore node d = 1 / 10 ∨
    g.riskScore node d = 2 / 10 ∨ g.riskScore node d = 3 / 10 ∨
    g.riskScore node d = 4 / 10 ∨ g.riskScore node d = 5 / 10 ∨
    g.riskScore node d = 6 / 10 := by
  unfold RelationshipGraph.riskScore
  split_ifs <;> norm_num

/-- C9: every record reported by `identify_shell_companies` carries a
risk score of exactly 0.3, 0.4, 0.5 or 0.6: the three additive weights
cap the score at 0.6 and the 0.3 reporting threshold cuts off everything
below 0.3. -/
theorem shell_risk_score_values (g : RelationshipGraph) (r : ShellRecord)
    (hr : r ∈ g.identify_shell_companies) :
    r.risk_score = 3 / 10 ∨ r.risk_score = 4 / 10 ∨
      r.risk_score = 5 / 10 ∨ r.risk_score = 6 / 10 := by
  rw [RelationshipGraph.identify_shell_companies] at hr
  have hr' : r ∈ g.shellCandidates := (sortByRiskDesc_perm _).subset hr
  obtain ⟨node, hn, hf⟩ := List.mem_filterMap.mp hr'
  cases hd : g.get_entity_data node with
  | none =>
      rw [hd] at hf
      exact absurd hf (by simp)
  | some d =>
      rw [hd] at hf
      have hf' : (if REPORT_THRESHOLD ≤ g.riskScore node d then
          some ({ slug := node, name := d.name,
                  risk_score := g.riskScore node d } : ShellRecord)
        else none) = some r := hf
      by_cases hth : REPORT_THRESHOLD ≤ g.riskScore node d
      · rw [if_pos hth] at hf'
        injection hf' with hf2
        subst hf2
        have hrs :
            ({ slug := node, name := d.name,
               risk_score := g.riskScore node d } : ShellRecord).risk_score =
              g.riskScore node d := rfl
        rw [hrs]
        rcases riskScore_value_cases g node d with h | h | h | h | h | h | h <;>
          rw [h] at hth ⊢ <;> norm_num [REPORT_THRESHOLD] at hth ⊢
      · rw [if_neg hth] at hf'
        exact absurd hf' (by simp)

/-- Witness for C9: in the end-to-end scenario graph, `acme-opco` is
reported with score 0.6. -/
theorem shell_risk_score_values_witness :
    (⟨"acme-opco", "Acme OpCo", (6 : ℚ) / 10⟩ : ShellRecord)
        ∈ acmeGraph.identify_shell_companies ∧
    ((6 : ℚ) / 10 = 3 / 10 ∨ (6 : ℚ) / 10 = 4 / 10 ∨
      (6 : ℚ) / 10 = 5 / 10 ∨ (6 : ℚ) / 10 = 6 / 10) := by
  have d1 : ("acme-opco" : String) ≠ "acme-holdings" := by decide
  have d2 : ("acme-holdings" : String) ≠ "acme-opco" := by decide
  have hc : acmeGraph.shellCandidates =
      [⟨"acme-opco", "Acme OpCo", (3 : ℚ) / 10 + 2 / 10 + 1 / 10⟩] := by
    rw [show acmeGraph = acmeLit from rfl]
    norm_num [acmeLit, RelationshipGraph.shellCandidates,
      RelationshipGraph.get_entity_data, lookupAssoc,
      RelationshipGraph.riskScore, RelationshipGraph.factor2,
      RelationshipGraph.subsidiaries, RelationshipGraph.parents,
      REPORT_THRESHOLD, List.filterMap_cons, List.filterMap_nil, d1, d2]
  have hmem : (⟨"acme-opco", "Acme OpCo", (6 : ℚ) / 10⟩ : ShellRecord)
      ∈ acmeGraph.identify_shell_companies := by
    rw [RelationshipGraph.identify_shell_companies, hc]
    norm_num [sortByRiskDesc, insertDesc]
  exact ⟨hmem, shell_risk_score_values acmeGraph _ hmem⟩

/-- C1: `identify_shell_companies` reports exactly the nodes carrying a
metadata snapshot whose additive factor score reaches the 0.3 threshold;
each record is the node's slug, snapshot display name and score; the
output is a permutation of the candidate list sorted descending by score,
and for every score value the records carrying it keep their encounter
order (stability). -/
theorem identify_shell_companies_spec (g : RelationshipGraph) :
    List.Perm g.identify_shell_companies g.shellCandidates ∧
    (∀ r : ShellRecord, r ∈ g.identify_shell_companies ↔
      ∃ d, r.slug ∈ g.nodes ∧ g.get_entity_data r.slug = some d ∧
        r.name = d.name ∧ r.risk_score = g.riskScore r.slug d ∧
        REPORT_THRESHOLD ≤ r.risk_score) ∧
    List.Pairwise (fun a b => b.risk_score ≤ a.risk_score)
      g.identify_shell_companies ∧
    (∀ q : ℚ,
      g.identify_shell_companies.filter (fun r => r.risk_score = q) =
        g.shellCandidates.filter (fun r => r.risk_score = q)) := by
  refine ⟨sortByRiskDesc_perm _, ?_, sortByRiskDesc_sorted _,
    fun q => filter_sortByRiskDesc _ q⟩
  intro r
  rw [RelationshipGraph.identify_shell_companies,
    (sortByRiskDesc_perm g.shellCandidates).mem_iff]
  constructor
  · intro hr
    obtain ⟨node, hn, hf⟩ := List.mem_filterMap.mp hr
    cases hd : g.get_entity_data node with
    | none =>
        rw [hd] at hf
        exact absurd hf (by simp)
    | some d =>
        rw [hd] at hf
        have hf' : (if REPORT_THRESHOLD ≤ g.riskScore node d then
            some ({ slug := node, name := d.name,
                    risk_score := g.riskScore node d } : ShellRecord)
          else none) = some r := hf
        by_cases hth : REPORT_THRESHOLD ≤ g.riskScore node d
        · rw [if_pos hth] at hf'
          injection hf' with hf2
          subst hf2
          exact ⟨d, hn, hd, rfl, rfl, hth⟩
        · rw [if_neg hth] at hf'
          exact absurd hf' (by simp)
  · rintro ⟨d, hslug, hd, hname, hscore, hth⟩
    obtain ⟨rs, rn, rr⟩ := r
    have hslug' : rs ∈ g.nodes := hslug
    have hd' : g.get_entity_data rs = some d := hd
    have hname' : rn = d.name := hname
    have hscore' : rr = g.riskScore rs d := hscore
    have hth' : REPORT_THRESHOLD ≤ rr := hth
    rw [hscore'] at hth'
    refine List.mem_filterMap.mpr ⟨rs, hslug', ?_⟩
    rw [hd']
    show (if REPORT_THRESHOLD ≤ g.riskScore rs d then
        some ({ slug := rs, name := d.name,
                risk_score := g.riskScore rs d } : ShellRecord)
      else none) = some ⟨rs, rn, rr⟩
    rw [if_pos hth', hname', hscore']

end Chronos
